import Mathlib

/-!
# Senderwolf: a shallow embedding of the SMTP client core

This file embeds, in Lean, the parts of the senderwolf repository that its
specification talks about: the SMTP protocol client of `src/lib/smtpClient.js`
(reply reading, EHLO capability parsing, STARTTLS, the four authentication
mechanisms, recipient handling and message composition), the connection pool
of the pool-manager module (rate limiter, acquisition, release, idle expiry,
pooled-connection close), and the orchestrator `sendEmail` of
`src/lib/sendEmail.js` together with its private SMTP client.

JavaScript strings are modelled as `List Char`; JS `Set`s as insertion-ordered
duplicate-free lists; the SMTP server is modelled as the fixed sequence of
replies the socket delivers, indexed by read count (so comparing two runs
against the same reply sequence is "server behavior held fixed").  Commands
written to the socket are passed along where the source passes them, but a
fixed reply sequence does not inspect them.  Asynchronous steps are modelled
by their synchronous segments executed in program order.
-/

namespace Senderwolf

/-- JS strings are modelled as lists of characters. -/
abbrev JStr := List Char

/-- A Lean string literal viewed as the JS string model. -/
def js (s : String) : JStr := s.data

/-- JS `str.split(sep)` for a one-character separator. -/
def splitCh (sep : Char) : JStr → List JStr
  | [] => [[]]
  | c :: cs =>
    match splitCh sep cs with
    | [] => [[]]
    | g :: gs => if c = sep then [] :: g :: gs else (c :: g) :: gs

/-- JS `str.split(sep)` for a two-character separator `⟨a, b⟩`
(left-to-right, non-overlapping). -/
def split2 (a b : Char) : JStr → List JStr
  | [] => [[]]
  | [c] => [[c]]
  | c1 :: c2 :: cs =>
    if c1 = a ∧ c2 = b then [] :: split2 a b cs
    else
      match split2 a b (c2 :: cs) with
      | [] => [[]]
      | g :: gs => (c1 :: g) :: gs

/-- JS `str.trim()`. -/
def listTrim (l : JStr) : JStr :=
  ((l.dropWhile Char.isWhitespace).reverse.dropWhile Char.isWhitespace).reverse

/-- JS `s.startsWith(p)` (arguments: the string, then the candidate lead). -/
def jsStartsWith : JStr → JStr → Bool
  | _, [] => true
  | [], _ :: _ => false
  | c :: cs, p :: ps => c = p && jsStartsWith cs ps

/-- JS `xs.join(sep)`. -/
def jsJoin (sep : JStr) : List JStr → JStr
  | [] => []
  | [x] => x
  | x :: y :: rest => x ++ sep ++ jsJoin sep (y :: rest)

/-- A JS value in a position where the source may see `undefined`, a string,
or an array of strings (e.g. `mailOptions.cc`). -/
inductive JsVal
  | absent
  | str (s : JStr)
  | arr (l : List JStr)
deriving DecidableEq

/-- JS truthiness of such a value: `undefined` and `""` are falsy, every
array (including `[]`) is truthy. -/
def truthy : JsVal → Bool
  | .absent => false
  | .str s => !s.isEmpty
  | .arr _ => true

/-- `Array.isArray(x) ? x : [x]`.  (`absent` is only ever passed under a
truthiness guard in the source; it is mapped to `[]` here.) -/
def asArray : JsVal → List JStr
  | .absent => []
  | .str s => [s]
  | .arr l => l

/-- String interpolation `${x}` of such a value (array case: JS joins with
bare commas). -/
def interp : JsVal → JStr
  | .absent => js "undefined"
  | .str s => s
  | .arr l => jsJoin (js ",") l

/-! ## Base64 (Node `Buffer.prototype.toString("base64")`) -/

/-- The base64 alphabet. -/
def b64Alphabet : JStr :=
  js "ABCDEFGHIJKLMNOPQRSTUVWXYZabcdefghijklmnopqrstuvwxyz0123456789+/"

/-- The character for a sextet value. -/
def valToChar (n : Nat) : Char := b64Alphabet.getD n 'A'

/-- The sextet value of an alphabet character. -/
def charToVal (c : Char) : Nat := b64Alphabet.indexOf c

/-- Base64 encoding of a byte sequence, with `=` padding, as produced by
`Buffer.from(bytes).toString("base64")`. -/
def b64EncodeBytes : List Nat → JStr
  | [] => []
  | [b0] => [valToChar (b0 / 4), valToChar (b0 % 4 * 16), '=', '=']
  | [b0, b1] =>
    [valToChar (b0 / 4), valToChar (b0 % 4 * 16 + b1 / 16), valToChar (b1 % 16 * 4), '=']
  | b0 :: b1 :: b2 :: rest =>
    valToChar (b0 / 4) :: valToChar (b0 % 4 * 16 + b1 / 16) ::
      valToChar (b1 % 16 * 4 + b2 / 64) :: valToChar (b2 % 64) :: b64EncodeBytes rest

/-- Standard base64 decoding of a padded base64 text, four characters at a
time (`xy==` yields one byte, `xyz=` two, a full group three). -/
def b64DecodeChars : JStr → List Nat
  | c0 :: c1 :: c2 :: c3 :: rest =>
    if c2 = '=' then [charToVal c0 * 4 + charToVal c1 / 16]
    else if c3 = '=' then
      [charToVal c0 * 4 + charToVal c1 / 16, charToVal c1 % 16 * 16 + charToVal c2 / 4]
    else
      (charToVal c0 * 4 + charToVal c1 / 16) ::
        (charToVal c1 % 16 * 16 + charToVal c2 / 4) ::
        (charToVal c2 % 4 * 64 + charToVal c3) :: b64DecodeChars rest
  | _ => []

/-- ASCII model of `Buffer.from(str).toString("base64")` (credential values in
this development are ASCII, where UTF-8 bytes coincide with code points). -/
def jsB64 (s : JStr) : JStr := b64EncodeBytes (s.map Char.toNat)

/-- The chunking loop `for (let i = 0; i < s.length; i += 76)` of `sendMail`:
`cur` is the reversed portion of the current chunk, `k` the number of
characters it still accepts. -/
def chunksOf76Go (cur : JStr) (k : Nat) : JStr → List JStr
  | [] => [cur.reverse]
  | c :: cs =>
    if k = 0 then cur.reverse :: chunksOf76Go [c] 75 cs
    else chunksOf76Go (c :: cur) (k - 1) cs

/-- The text `sendMail` emits for one attachment's base64 content: hard lines
of at most 76 characters, each terminated by CRLF (`message +=
base64Content.substring(i, i + 76) + "\r\n"`); an empty content emits
nothing because the loop body never runs. -/
def emit76 (content : JStr) : JStr :=
  match content with
  | [] => []
  | c :: cs => ((chunksOf76Go [c] 75 cs).map (fun chunk => chunk ++ js "\r\n")).flatten

/-- Stripping the inserted line breaks from the transmitted text. -/
def stripLineBreaks (l : JStr) : JStr :=
  l.filter (fun c => !(c = '\r' || c = '\n'))

/-! ## SMTP protocol client (`src/lib/smtpClient.js`) -/

/-- The test `line.length >= 3 && line[3] === " "` of `readResponse`:
`line[3]` is `undefined` when the line has exactly 3 characters, so the test
holds only when index 3 exists and holds a space. -/
def isFinalLine (line : JStr) : Bool :=
  3 ≤ line.length && line.get? 3 == some ' '

/-- `readResponse` applied to the buffered data: it scans the complete lines
(`buffer.split("\r\n")`, loop indices `i < lines.length - 1`) and resolves
with the FIRST line whose 4th character is a space; continuation lines
scanned on the way are dropped, not accumulated, and `none` means the
promise stays pending. -/
def readResponse (buffer : JStr) : Option JStr :=
  ((split2 '\r' '\n' buffer).dropLast).find? isFinalLine

/-- Insertion into a JS `Set` (insertion-ordered, duplicates ignored). -/
def jsSetAdd (caps : List JStr) (x : JStr) : List JStr :=
  if x ∈ caps then caps else caps ++ [x]

/-- One iteration of the `for (const line of lines)` loop body of
`parseCapabilities`. -/
def parseCapLine (caps : List JStr) (line : JStr) : List JStr :=
  let trimmed := listTrim line
  if jsStartsWith trimmed (js "250-") || jsStartsWith trimmed (js "250 ") then
    let capability := (splitCh ' ' (trimmed.drop 4)).getD 0 []
    jsSetAdd caps (capability.map Char.toUpper)
  else caps

/-- `parseCapabilities(ehloResponse)`: splits on `'\n'` and ADDS each parsed
keyword (upper-cased first token after the `250-`/`250 ` lead) to the
existing capability set `this.capabilities`, which is created once in the
constructor and never cleared. -/
def parseCapabilities (caps : List JStr) (ehloResponse : JStr) : List JStr :=
  (splitCh '\n' ehloResponse).foldl parseCapLine caps

/-- The `auth` configuration object of the enhanced client.  `accessToken`
may be `undefined`. -/
structure AuthCfg where
  authTypeField : Option JStr
  user : JStr
  pass : JStr
  accessToken : Option JStr
deriving DecidableEq

/-- The configuration fields of `SMTPClient` that `authenticate` consults. -/
structure ClientCfg where
  secure : Bool
  requireTLS : Bool
  auth : AuthCfg
  name : JStr
deriving DecidableEq

/-- The environment of one client session: the fixed sequence of replies the
socket delivers (indexed by read count; `Except.error` is a socket `error`
event rejecting the pending read), and the outcome of a STARTTLS socket
upgrade (`some e` is the TLS `error` event). -/
structure ServerEnv where
  replies : Nat → Except JStr JStr
  upgradeOutcome : Option JStr

/-- `sendCommand(command, expectCode)`: writes the command, reads reply `i`,
and fails with `SMTP Error: <reply>` unless the reply starts with the
expected code.  The reply sequence is fixed, so the written command does not
influence it. -/
def sendCommand (env : ServerEnv) (i : Nat) (_command expectCode : JStr) :
    Except JStr (JStr × Nat) :=
  match env.replies i with
  | .error e => .error e
  | .ok response =>
    if jsStartsWith response expectCode then .ok (response, i + 1)
    else .error (js "SMTP Error: " ++ response)

/-- JS truthiness of the optional `accessToken` (`undefined` and `""` are
falsy). -/
def tokenTruthy : Option JStr → Bool
  | none => false
  | some t => !t.isEmpty

/-- `authLogin()`: capability check, then `AUTH LOGIN` / base64(user) /
base64(pass) expecting 334, 334, 235. -/
def authLogin (env : ServerEnv) (caps : List JStr) (auth : AuthCfg) (i : Nat) :
    Except JStr Nat :=
  if !(caps.contains (js "AUTH") || caps.contains (js "LOGIN")) then
    .error (js "Server does not support LOGIN authentication")
  else do
    let (_, i) ← sendCommand env i (js "AUTH LOGIN") (js "334")
    let (_, i) ← sendCommand env i (jsB64 auth.user) (js "334")
    let (_, i) ← sendCommand env i (jsB64 auth.pass) (js "235")
    .ok i

/-- `authPlain()`: capability check, then a single `AUTH PLAIN <b64>`
expecting 235. -/
def authPlain (env : ServerEnv) (caps : List JStr) (auth : AuthCfg) (i : Nat) :
    Except JStr Nat :=
  if !(caps.contains (js "AUTH") || caps.contains (js "PLAIN")) then
    .error (js "Server does not support PLAIN authentication")
  else do
    let authString := jsB64 ([Char.ofNat 0] ++ auth.user ++ [Char.ofNat 0] ++ auth.pass)
    let (_, i) ← sendCommand env i (js "AUTH PLAIN " ++ authString) (js "235")
    .ok i

/-- `authOAuth2()`: requires a truthy access token, then
`AUTH OAUTHBEARER <b64>` expecting 235. -/
def authOAuth2 (env : ServerEnv) (auth : AuthCfg) (i : Nat) : Except JStr Nat :=
  if !tokenTruthy auth.accessToken then
    .error (js "OAuth2 access token is required")
  else do
    let token := auth.accessToken.getD []
    let authString :=
      js "user=" ++ auth.user ++ [Char.ofNat 1] ++ js "auth=Bearer " ++ token ++
        [Char.ofNat 1, Char.ofNat 1]
    let (_, i) ← sendCommand env i (js "AUTH OAUTHBEARER " ++ jsB64 authString) (js "235")
    .ok i

/-- `authXOAuth2()`: requires a truthy access token, then
`AUTH XOAUTH2 <b64>` expecting 235. -/
def authXOAuth2 (env : ServerEnv) (auth : AuthCfg) (i : Nat) : Except JStr Nat :=
  if !tokenTruthy auth.accessToken then
    .error (js "XOAUTH2 access token is required")
  else do
    let token := auth.accessToken.getD []
    let authString :=
      js "user=" ++ auth.user ++ [Char.ofNat 1] ++ js "auth=Bearer " ++ token ++
        [Char.ofNat 1, Char.ofNat 1]
    let (_, i) ← sendCommand env i (js "AUTH XOAUTH2 " ++ jsB64 authString) (js "235")
    .ok i

/-- `this.auth.type || 'login'` (an absent or empty type falls back to
`login`). -/
def effectiveAuthType (auth : AuthCfg) : JStr :=
  match auth.authTypeField with
  | none => js "login"
  | some t => if t.isEmpty then js "login" else t

/-- `authenticate()`: EHLO and capability parsing into the set `caps0`
carried by the instance, the STARTTLS branch (upgrade in place, re-EHLO, and
capability parsing into the SAME set), then dispatch on
`authType.toLowerCase()`.  Returns the final capability set and read count. -/
def authenticate (env : ServerEnv) (cfg : ClientCfg) (caps0 : List JStr) (i : Nat) :
    Except JStr (List JStr × Nat) := do
  let (ehloResponse, i) ← sendCommand env i (js "EHLO " ++ cfg.name) (js "250")
  let caps := parseCapabilities caps0 ehloResponse
  let (caps, i) ←
    if cfg.requireTLS && !cfg.secure && caps.contains (js "STARTTLS") then do
      let (_, i) ← sendCommand env i (js "STARTTLS") (js "220")
      match env.upgradeOutcome with
      | some e => Except.error e
      | none => do
        let (newEhloResponse, i) ← sendCommand env i (js "EHLO " ++ cfg.name) (js "250")
        Except.ok (parseCapabilities caps newEhloResponse, i)
    else Except.ok (caps, i)
  let authTypeRaw := effectiveAuthType cfg.auth
  let authType := authTypeRaw.map Char.toLower
  if authType = js "login" then do
    let i ← authLogin env caps cfg.auth i
    Except.ok (caps, i)
  else if authType = js "plain" then do
    let i ← authPlain env caps cfg.auth i
    Except.ok (caps, i)
  else if authType = js "oauth2" then do
    let i ← authOAuth2 env cfg.auth i
    Except.ok (caps, i)
  else if authType = js "xoauth2" then do
    let i ← authXOAuth2 env cfg.auth i
    Except.ok (caps, i)
  else Except.error (js "Unsupported authentication method: " ++ authTypeRaw)

/-- The error text of a session outcome (`none` when it succeeded). -/
def errOf {α : Type} : Except JStr α → Option JStr
  | .error e => some e
  | .ok _ => none

/-- `extractEmail` scanner for the regex `/<([^>]+)>/`: the first `<`
followed by at least one non-`>` character and a closing `>` yields the
captured group. -/
def extractEmailGo : JStr → Option JStr
  | [] => none
  | '<' :: rest =>
    match rest.span (fun c => !(c = '>')) with
    | ([], _) => extractEmailGo rest
    | (group, rem) =>
      match rem with
      | '>' :: _ => some group
      | _ => extractEmailGo rest
  | _ :: rest => extractEmailGo rest

/-- `extractEmail(emailString)`: the captured group of `/<([^>]+)>/`, or the
whole string when the regex does not match. -/
def extractEmail (emailString : JStr) : JStr :=
  (extractEmailGo emailString).getD emailString

/-- The `mailOptions` fields `sendMail` consults. -/
structure MailOpts where
  fromAddr : JStr
  fromHeader : JStr
  toRecip : JsVal
  cc : JsVal
  bcc : JsVal
  replyTo : JsVal
  subject : JStr
  priority : JsVal
  headers : List (JStr × JStr)
  text : JsVal
  html : JsVal
deriving DecidableEq

/-- The recipient list `allRecipients` of `sendMail`: `to`, then `cc` and
`bcc` when truthy, each normalised by `Array.isArray(x) ? x : [x]`. -/
def allRecipients (o : MailOpts) : List JStr :=
  asArray o.toRecip ++
    (if truthy o.cc then asArray o.cc else []) ++
    (if truthy o.bcc then asArray o.bcc else [])

/-- The `RCPT TO` commands `sendMail` issues: exactly one per entry of
`allRecipients`, with the bare address extracted from the trimmed entry. -/
def rcptCommands (o : MailOpts) : List JStr :=
  (allRecipients o).map (fun r => js "RCPT TO:<" ++ extractEmail (listTrim r) ++ js ">")

/-- `priorityMap[mailOptions.priority]` (any value other than `high`/`low`
reads `undefined` from the map). -/
def priorityMapVal (p : JsVal) : JStr :=
  if p = .str (js "high") then js "1 (Highest)"
  else if p = .str (js "low") then js "5 (Lowest)"
  else js "undefined"

/-- The header block `sendMail` composes (each list entry is one `message +=
"...\r\n"` header line, in source order, up to and including
`MIME-Version`): From, To, Cc only when `cc` is truthy, Reply-To when
truthy, Subject, Message-ID, Date, X-Priority when truthy and not `normal`,
the custom headers, and MIME-Version.  No branch writes a Bcc header.
`messageId` and `dateStr` stand for the generated/selected values. -/
def headerLines (o : MailOpts) (messageId dateStr : JStr) : List JStr :=
  [js "From: " ++ o.fromHeader,
   js "To: " ++ jsJoin (js ", ") (asArray o.toRecip)] ++
  (if truthy o.cc then [js "Cc: " ++ jsJoin (js ", ") (asArray o.cc)] else []) ++
  (if truthy o.replyTo then [js "Reply-To: " ++ interp o.replyTo] else []) ++
  [js "Subject: " ++ o.subject,
   js "Message-ID: " ++ messageId,
   js "Date: " ++ dateStr] ++
  (if truthy o.priority && !(o.priority = .str (js "normal")) then
    [js "X-Priority: " ++ priorityMapVal o.priority] else []) ++
  o.headers.map (fun kv => kv.1 ++ js ": " ++ kv.2) ++
  [js "MIME-Version: 1.0"]

/-- Whether some line of a header block starts with the given header lead. -/
def hasHeaderLead (lines : List JStr) (lead : JStr) : Bool :=
  lines.any (fun l => jsStartsWith l lead)

/-! ## Connection pool (the pool-manager module) -/

/-- The rate-limiter state of `SMTPConnectionPool`
(`lastRateCheck`, `rateCounter`). -/
structure RL where
  lastRateCheck : Nat
  rateCounter : Nat
deriving DecidableEq

/-- One synchronous evaluation of `checkRateLimit` at time `now`: reset the
window when `rateDelta` has elapsed; then either admit (increment the
counter, second component `none`) or schedule a retry at the returned wake
time (`setTimeout(waitTime)` then recursion). -/
def rlStep (rateDelta rateLimit : Nat) (st : RL) (now : Nat) : RL × Option Nat :=
  let st1 := if rateDelta ≤ now - st.lastRateCheck then RL.mk now 0 else st
  if rateLimit ≤ st1.rateCounter then
    let waitTime := rateDelta - (now - st1.lastRateCheck)
    if 0 < waitTime then (st1, some (now + waitTime))
    else (RL.mk st1.lastRateCheck (st1.rateCounter + 1), none)
  else (RL.mk st1.lastRateCheck (st1.rateCounter + 1), none)

/-- `checkRateLimit()` including its sleep-and-retry recursion, fuel-bounded;
the result is the state after admission and the admission time.  (For
`rateLimit ≥ 1` one retry always suffices, so fuel 2 is exact.) -/
def rlAcquire (rateDelta rateLimit : Nat) : Nat → RL → Nat → Option (RL × Nat)
  | 0, _, _ => none
  | fuel + 1, st, now =>
    match rlStep rateDelta rateLimit st now with
    | (st1, none) => some (st1, now)
    | (st1, some wake) => rlAcquire rateDelta rateLimit fuel st1 wake

/-- A sequence of rate-limiter consultations at the given times, threading
the state; each admission is recorded as (admission time, window start at
admission). -/
def rlRun (rateDelta rateLimit : Nat) : RL → List Nat → Option (RL × List (Nat × Nat))
  | st, [] => some (st, [])
  | st, t :: ts =>
    match rlAcquire rateDelta rateLimit 2 st t with
    | none => none
    | some (st1, a) =>
      match rlRun rateDelta rateLimit st1 ts with
      | none => none
      | some (stf, adms) => some (stf, (a, st1.lastRateCheck) :: adms)

/-- Validity of a consultation-time sequence: each consultation happens no
earlier than the window start it observes (time does not run backwards
between the limiter's sequential evaluations). -/
def rlOkChain (rateDelta rateLimit : Nat) : RL → List Nat → Bool
  | _, [] => true
  | st, t :: ts =>
    st.lastRateCheck ≤ t &&
      (match rlAcquire rateDelta rateLimit 2 st t with
       | none => false
       | some (st1, _) => rlOkChain rateDelta rateLimit st1 ts)

/-- The number of recorded admissions charged to the window starting at
`w`. -/
def countWindow (adms : List (Nat × Nat)) (w : Nat) : Nat :=
  (adms.filter (fun p => p.2 = w)).length

/-- One `PooledSMTPConnection` as the pool sees it. -/
structure PConn where
  id : Nat
  busy : Bool
  closed : Bool
  messageCount : Nat
  lastUsed : Nat
deriving DecidableEq

/-- `isIdle()`. -/
def isIdleC (c : PConn) : Bool := !c.busy && !c.closed

/-- `isExpired()` at time `now`. -/
def isExpiredC (c : PConn) (now idleTimeout : Nat) : Bool :=
  idleTimeout < now - c.lastUsed

/-- `PooledSMTPConnection.close()` restricted to the connection state: a
second call returns at the `if (this.closed) return` guard.  The Bool is
whether the `close` event was emitted by this call. -/
def closeConn (c : PConn) : PConn × Bool :=
  if c.closed then (c, false) else ({ c with closed := true }, true)

/-- `markIdle()` (it also emits the `idle` event). -/
def markIdleConn (c : PConn) : PConn := { c with busy := false }

/-- `markBusy()`. -/
def markBusyConn (c : PConn) : PConn := { c with busy := true }

/-- The `setTimeout` callback armed by `releaseConnection`: close the
connection if it is still idle and open when the check fires. -/
def idleCheckFire (c : PConn) : PConn :=
  if isIdleC c && !c.closed then (closeConn c).1 else c

/-- `releaseConnection(connection)`: close immediately when the connection
has reached `maxMessages`, otherwise mark it idle and arm the idle-expiry
check (the Bool is whether the check was armed). -/
def releaseConnection (maxMessages : Nat) (c : PConn) : PConn × Bool :=
  if maxMessages ≤ c.messageCount then ((closeConn c).1, false)
  else (markIdleConn c, true)

/-- The pool options after the constructor's defaulting
(`maxConnections: 5, maxMessages: 100, rateDelta: 1000, rateLimit: 3,
idleTimeout: 30000`). -/
structure PoolOptions where
  maxConnections : Nat
  maxMessages : Nat
  rateDelta : Nat
  rateLimit : Nat
  idleTimeout : Nat
deriving DecidableEq

/-- The constructor defaults of `SMTPConnectionPool`. -/
def defaultPoolOptions : PoolOptions :=
  { maxConnections := 5, maxMessages := 100, rateDelta := 1000, rateLimit := 3
    idleTimeout := 30000 }

/-- The mutable state of `SMTPConnectionPool`: the key → connection map (in
insertion order), the FIFO wait queue of requested keys, the active count,
the rate-limiter state and the closed flag.  `nextId` names the next created
connection. -/
structure PoolState where
  connections : List (JStr × PConn)
  queue : List JStr
  activeConnections : Nat
  rl : RL
  poolClosed : Bool
  nextId : Nat
deriving DecidableEq

/-- `Map.prototype.get`. -/
def mapGet (m : List (JStr × PConn)) (k : JStr) : Option PConn :=
  (m.find? (fun kv => kv.1 = k)).map (fun kv => kv.2)

/-- `Map.prototype.set` (replace in place or append). -/
def mapSet (m : List (JStr × PConn)) (k : JStr) (c : PConn) : List (JStr × PConn) :=
  match m with
  | [] => [(k, c)]
  | kv :: rest => if kv.1 = k then (k, c) :: rest else kv :: mapSet rest k c

/-- `Map.prototype.delete`. -/
def mapDelete (m : List (JStr × PConn)) (k : JStr) : List (JStr × PConn) :=
  m.filter (fun kv => !(kv.1 = k))

/-- The outcome of a `getConnection` call: a connection handed to the
caller, a request parked in the FIFO queue, or the `Connection pool is
closed` rejection. -/
inductive GetOutcome
  | handed (id : Nat)
  | queuedReq
  | poolClosedError
deriving DecidableEq

/-- `getConnection(config)` for the key `key`, with the connect handshake of
a created connection succeeding immediately: rate limiting first, then reuse
of an idle non-expired pooled connection for the key (marking it busy), then
creation below `maxConnections` — note `createConnection` stores and returns
the fresh connection with `busy` still `false` — else FIFO queueing.  (The
fuel-exhausted limiter branch is reported as `queuedReq`; it is unreachable
for `rateLimit ≥ 1`.) -/
def getConnection (opts : PoolOptions) (p : PoolState) (key : JStr) (now : Nat) :
    GetOutcome × PoolState :=
  if p.poolClosed then (.poolClosedError, p)
  else
    match rlAcquire opts.rateDelta opts.rateLimit 2 p.rl now with
    | none => (.queuedReq, p)
    | some (rl1, tAdm) =>
      let p1 : PoolState := { p with rl := rl1 }
      let create : PoolState → GetOutcome × PoolState := fun q =>
        if opts.maxConnections ≤ q.activeConnections then
          (.queuedReq, { q with queue := q.queue ++ [key] })
        else
          let c : PConn :=
            { id := q.nextId, busy := false, closed := false, messageCount := 0
              lastUsed := tAdm }
          (.handed c.id,
           { q with connections := mapSet q.connections key c
                    activeConnections := q.activeConnections + 1
                    nextId := q.nextId + 1 })
      match mapGet p1.connections key with
      | some c =>
        if isIdleC c && !isExpiredC c tAdm opts.idleTimeout then
          (.handed c.id, { p1 with connections := mapSet p1.connections key (markBusyConn c) })
        else create p1
      | none => create p1

/-- `processQueue()` at time `now`: serve the FIFO head when a slot is free
(the served waiter gets a freshly created connection; connect succeeds
immediately).  The second component names the served key. -/
def processQueue (opts : PoolOptions) (p : PoolState) (now : Nat) :
    PoolState × Option JStr :=
  match p.queue with
  | [] => (p, none)
  | k :: rest =>
    if opts.maxConnections ≤ p.activeConnections then (p, none)
    else
      let c : PConn :=
        { id := p.nextId, busy := false, closed := false, messageCount := 0, lastUsed := now }
      ({ p with queue := rest, connections := mapSet p.connections k c
                activeConnections := p.activeConnections + 1, nextId := p.nextId + 1 },
       some k)

/-- The pool's `connection.on('close')` handler for the connection created
under `key`: delete the map entry, decrement the active count, and process
the queue. -/
def onCloseEvent (opts : PoolOptions) (p : PoolState) (key : JStr) (now : Nat) :
    PoolState × Option JStr :=
  processQueue opts
    { p with connections := mapDelete p.connections key
             activeConnections := p.activeConnections - 1 } now

/-- `PooledSMTPConnection.close()` with its side effects: the result state,
whether `client.quit()` was awaited, and whether the `close` event was
emitted.  A call on an already-closed connection returns at the guard with
no effect. -/
structure PooledWrap where
  closed : Bool
  hasClient : Bool
  busy : Bool
  messageCount : Nat
deriving DecidableEq

/-- One `close()` call on the wrapper. -/
def closeWrap (c : PooledWrap) : PooledWrap × Bool × Bool :=
  if c.closed then (c, false, false)
  else ({ c with closed := true, hasClient := false }, c.hasClient, true)

/-- The number of `close` events emitted over `n` successive `close()`
calls. -/
def closeEmitCount (c : PooledWrap) : Nat → Nat
  | 0 => 0
  | n + 1 =>
    let r := closeWrap c
    (if r.2.2 then 1 else 0) + closeEmitCount r.1 n

/-! ## Orchestrator (`src/lib/sendEmail.js`) -/

/-- The mail fields the orchestrator's private client consults. -/
structure Mail7 where
  fromEmail : JStr
  fromHeader : JStr
  toRecip : JsVal
  subject : JStr
deriving DecidableEq

/-- The environment of one orchestrator run: outcomes of the external
collaborators (config discovery and zod validation), of the socket connect,
and the fixed sequence of socket reads (`Except.error` is a socket `error`
event rejecting the pending read). -/
structure Env7 where
  loadConfigOutcome : Except JStr Unit
  validateOutcome : Except JStr Mail7
  connectOutcome : Except JStr Unit
  replies : Nat → Except JStr JStr
  genMessageId : JStr

/-- The private client's `sendCommand` (same shape as the enhanced
client's). -/
def sendCommand7 (env : Env7) (i : Nat) (_command expectCode : JStr) :
    Except JStr (JStr × Nat) :=
  match env.replies i with
  | .error e => .error e
  | .ok response =>
    if jsStartsWith response expectCode then .ok (response, i + 1)
    else .error (js "SMTP Error: " ++ response)

/-- The private client's `readResponse` as the next socket read. -/
def readResponse7 (env : Env7) (i : Nat) : Except JStr (JStr × Nat) :=
  match env.replies i with
  | .error e => .error e
  | .ok response => .ok (response, i + 1)

/-- The private client's `authenticate()`: EHLO, `AUTH LOGIN`,
base64(user), base64(pass) — no capability checks. -/
def authenticate7 (env : Env7) (host user pass : JStr) (i : Nat) : Except JStr Nat := do
  let (_, i) ← sendCommand7 env i (js "EHLO " ++ host) (js "250")
  let (_, i) ← sendCommand7 env i (js "AUTH LOGIN") (js "334")
  let (_, i) ← sendCommand7 env i (jsB64 user) (js "334")
  let (_, i) ← sendCommand7 env i (jsB64 pass) (js "235")
  .ok i

/-- The `RCPT TO` loop of the private client's `sendMail` (it trims each
recipient but does not extract the bare address). -/
def rcptLoop7 (env : Env7) : List JStr → Nat → Except JStr Nat
  | [], i => .ok i
  | r :: rest, i => do
    let (_, i1) ← sendCommand7 env i (js "RCPT TO:<" ++ listTrim r ++ js ">") (js "250")
    rcptLoop7 env rest i1

/-- The private client's `sendMail`: MAIL FROM, the RCPT loop, DATA
expecting 354, the message write, and the final read which must start with
250 or fail with `Failed to send email: <reply>`. -/
def sendMail7 (env : Env7) (mail : Mail7) (i : Nat) : Except JStr (JStr × Nat) := do
  let (_, i) ← sendCommand7 env i (js "MAIL FROM:<" ++ mail.fromEmail ++ js ">") (js "250")
  let i ← rcptLoop7 env (asArray mail.toRecip) i
  let (_, i) ← sendCommand7 env i (js "DATA") (js "354")
  let (response, i) ← readResponse7 env i
  if jsStartsWith response (js "250") then .ok (env.genMessageId, i)
  else .error (js "Failed to send email: " ++ response)

/-- The `try` body of `sendEmail`: load config, validate, connect, read the
greeting, authenticate, send, quit (whose errors the source ignores), and
return the message id.  Every failure is an `Except.error`. -/
def sendEmailBody (env : Env7) (user pass host : JStr) : Except JStr JStr := do
  let _ ← env.loadConfigOutcome
  let mail ← env.validateOutcome
  let _ ← env.connectOutcome
  let (_, i) ← readResponse7 env 0
  let i ← authenticate7 env host user pass i
  let (messageId, _) ← sendMail7 env mail i
  .ok messageId

/-- The orchestrator's result value. -/
inductive SendResult
  | success (messageId : JStr)
  | failure (error : JStr)
deriving DecidableEq

/-- `error.message || "Unknown error while sending email"`. -/
def errMessageOr (e : JStr) : JStr :=
  if e.isEmpty then js "Unknown error while sending email" else e

/-- `sendEmail(input)`: the `try` body wrapped in the `catch` that converts
any thrown error into `{success: false, error}` (after a best-effort
`quit()` whose own errors the source swallows). -/
def sendEmail (env : Env7) (user pass host : JStr) : SendResult :=
  match sendEmailBody env user pass host with
  | .ok messageId => .success messageId
  | .error e => .failure (errMessageOr e)

deriving instance DecidableEq for Except

/-! ## Concrete scenario inputs -/

/-- Scenario A of the specification: a four-line EHLO reply. -/
def scenarioA : JStr :=
  js "250-mx.test.com\r\n250-STARTTLS\r\n250-AUTH LOGIN PLAIN\r\n250 SIZE 1000000\r\n"

/-- A server whose EHLO reply (as the reader returns it) advertises only
`STARTTLS` before the upgrade and only `SIZE` after it, and which accepts
the subsequent commands. -/
def c2ServerEnv : ServerEnv where
  replies := fun i =>
    .ok (if i = 0 then js "250 STARTTLS"
      else if i = 1 then js "220 Ready"
      else if i = 2 then js "250 SIZE 35882577"
      else js "235 Accepted")
  upgradeOutcome := none

/-- A plaintext OAUTH2 session configuration used for the STARTTLS
capability scenarios. -/
def c2ClientCfg : ClientCfg where
  secure := false
  requireTLS := true
  auth :=
    { authTypeField := some (js "oauth2"), user := js "user@test.com"
      pass := js "secret", accessToken := some (js "tok") }
  name := js "localhost"

end Senderwolf

namespace Senderwolf

/-! # Theorems -/

/-- Helper: membership in a JS `Set` after one insertion. -/
theorem mem_jsSetAdd (caps : List JStr) (x c : JStr) :
    c ∈ jsSetAdd caps x ↔ c ∈ caps ∨ c = x := by
  by_cases h : x ∈ caps
  · simp only [jsSetAdd, if_pos h]
    exact ⟨Or.inl, fun hc => hc.elim id (fun he => he ▸ h)⟩
  · simp [jsSetAdd, if_neg h]

/-- Helper: one capability-parsing step only adds the keywords it parses
from its line. -/
theorem mem_parseCapLine (caps : List JStr) (l c : JStr) :
    c ∈ parseCapLine caps l ↔ c ∈ caps ∨ c ∈ parseCapLine [] l := by
  by_cases h : (jsStartsWith (listTrim l) (js "250-")
      || jsStartsWith (listTrim l) (js "250 ")) = true
  · simp only [parseCapLine, h, if_true]
    rw [mem_jsSetAdd, mem_jsSetAdd]
    simp
  · simp [parseCapLine, h]

/-- Helper: folding the capability parser over the reply lines unions the
parsed keywords into the carried set. -/
theorem mem_foldl_parseCapLine (ls : List JStr) :
    ∀ (caps : List JStr) (c : JStr),
      c ∈ ls.foldl parseCapLine caps ↔ c ∈ caps ∨ c ∈ ls.foldl parseCapLine [] := by
  induction ls with
  | nil => simp
  | cons l ls ih =>
    intro caps c
    simp only [List.foldl_cons]
    rw [ih (parseCapLine caps l) c, ih (parseCapLine [] l) c, mem_parseCapLine]
    tauto

/-- C1: `readResponse` resolves with only the final line of the Scenario A
EHLO reply, dropping every continuation line, so the capability set parsed
from what it returns is `{SIZE}` — although the full reply parses to a set
containing `STARTTLS`, `AUTH` and `SIZE` — and a LOGIN authentication on
such a session fails with the `AuthUnsupported` error, contradicting the
specified accumulate-before-returning behavior. -/
theorem c1_readResponse_drops_continuation_lines :
    readResponse scenarioA = some (js "250 SIZE 1000000")
    ∧ parseCapabilities [] (js "250 SIZE 1000000") = [js "SIZE"]
    ∧ (js "STARTTLS") ∈ parseCapabilities [] scenarioA
    ∧ (js "AUTH") ∈ parseCapabilities [] scenarioA
    ∧ (js "SIZE") ∈ parseCapabilities [] scenarioA
    ∧ errOf (authenticate
        ⟨fun _ => .ok (js "250 SIZE 1000000"), none⟩
        ⟨false, false,
          ⟨none, js "user@test.com", js "secret", none⟩, js "localhost"⟩ [] 0)
      = some (js "Server does not support LOGIN authentication") := by
  decide

/-- C2 counterexample: after a STARTTLS upgrade whose post-upgrade EHLO
advertises only `SIZE`, the client's capability set still contains the
pre-upgrade keyword `STARTTLS` — the post-upgrade set does not replace the
pre-upgrade one. -/
theorem c2_capability_set_not_replaced :
    authenticate c2ServerEnv c2ClientCfg [] 0 = .ok ([js "STARTTLS", js "SIZE"], 4)
    ∧ (js "STARTTLS") ∉ parseCapabilities [] (js "250 SIZE 35882577") := by
  decide

/-- C2 amended: the capability set produced by the post-upgrade EHLO is the
union of the pre-upgrade set and the keywords parsed from the post-upgrade
reply — every pre-upgrade keyword persists, whether or not it is
re-advertised. -/
theorem c2_parseCapabilities_unions :
    ∀ (caps : List JStr) (resp c : JStr),
      c ∈ parseCapabilities caps resp ↔ c ∈ caps ∨ c ∈ parseCapabilities [] resp := by
  intro caps resp c
  exact mem_foldl_parseCapLine (splitCh '\n' resp) caps c

/-- C4: the claim's exclusive-handout invariant fails on the code:
`createConnection` stores and returns the fresh connection without marking
it busy, so a second sequential `getConnection` for the same key reuses the
very connection the first caller still holds (no release happened in
between). -/
theorem c4_connection_handed_to_two_callers :
    (getConnection defaultPoolOptions ⟨[], [], 0, ⟨0, 0⟩, false, 0⟩
        (js "smtp.test.com:587:user@test.com") 5).1
      = .handed 0
    ∧ ((mapGet (getConnection defaultPoolOptions ⟨[], [], 0, ⟨0, 0⟩, false, 0⟩
          (js "smtp.test.com:587:user@test.com") 5).2.connections
          (js "smtp.test.com:587:user@test.com")).map isIdleC) = some true
    ∧ (getConnection defaultPoolOptions
        (getConnection defaultPoolOptions ⟨[], [], 0, ⟨0, 0⟩, false, 0⟩
          (js "smtp.test.com:587:user@test.com") 5).2
        (js "smtp.test.com:587:user@test.com") 5).1
      = .handed 0 := by
  decide

/-- C7: `sendEmail` always returns a `SendResult`: when the try body
succeeds it returns `success` with its message id, and when any step of the
body fails the error is converted into the uniform `failure` result (with
the `Unknown error` fallback for an empty message) — no exception reaches
the caller. -/
theorem c7_sendEmail_total_result (env : Env7) (user pass host : JStr) :
    (∃ m, sendEmailBody env user pass host = .ok m
      ∧ sendEmail env user pass host = .success m)
    ∨ (∃ e, sendEmailBody env user pass host = .error e
      ∧ sendEmail env user pass host = .failure (errMessageOr e)) := by
  cases h : sendEmailBody env user pass host with
  | ok m => exact Or.inl ⟨m, rfl, by simp [sendEmail, h]⟩
  | error e => exact Or.inr ⟨e, rfl, by simp [sendEmail, h]⟩

/-- Helper: a closed wrapper emits no `close` event, however often
`close()` is called again. -/
theorem closeEmitCount_of_closed (c : PooledWrap) (hc : c.closed = true) :
    ∀ n, closeEmitCount c n = 0 := by
  intro n
  induction n with
  | zero => rfl
  | succ n ih =>
    simp only [closeEmitCount, closeWrap, hc, if_true]
    simpa [closeWrap, hc] using ih

/-- C10: `close()` on a pooled connection is idempotent: the second call
returns at the guard without quitting the client again and without emitting
a second `close` event, and over any number of `close()` calls at most one
`close` event is emitted — so the pool decrements its counter and removes
the map entry at most once per connection. -/
theorem c10_close_idempotent (c : PooledWrap) :
    closeWrap (closeWrap c).1 = ((closeWrap c).1, false, false)
    ∧ (closeWrap c).1.closed = true
    ∧ (∀ n, closeEmitCount c n ≤ 1) := by
  by_cases hc : c.closed = true
  · refine ⟨?_, ?_, ?_⟩
    · simp [closeWrap, hc]
    · simp [closeWrap, hc]
    · intro n
      simp [closeEmitCount_of_closed c hc n]
  · have hcf : c.closed = false := by simpa using hc
    refine ⟨?_, ?_, ?_⟩
    · simp [closeWrap, hcf]
    · simp [closeWrap, hcf]
    · intro n
      cases n with
      | zero => simp [closeEmitCount]
      | succ n =>
        simp only [closeEmitCount, closeWrap, hcf]
        simp [closeEmitCount_of_closed { c with closed := true, hasClient := false } rfl n]

/-- Helper: a string never starts with a lead whose first character differs
from its own. -/
theorem jsStartsWith_head_ne (c p : Char) (cs ps : JStr) (h : ¬c = p) :
    jsStartsWith (c :: cs) (p :: ps) = false := by
  simp [jsStartsWith, h]

/-- Helper: the Cc header line starts with the Cc lead. -/
theorem jsStartsWith_cc_self (y : JStr) :
    jsStartsWith (js "Cc: " ++ y) (js "Cc:") = true := by
  show jsStartsWith ('C' :: 'c' :: ':' :: (' ' :: y)) ('C' :: 'c' :: ':' :: ([] : JStr)) = true
  simp [jsStartsWith]

/-- Helper: `any` over a conditional singleton. -/
theorem any_if_singleton (b : Bool) (x : JStr) (p : JStr → Bool) :
    (if b then [x] else []).any p = (b && p x) := by
  cases b <;> simp

/-- C3 counterexample: for `cc = []` — a validated value, and truthy in JS —
`sendMail` composes a `Cc: ` header line although the cc list is empty, so
"a Cc header exactly when cc is non-empty" fails as stated. -/
theorem c3_empty_cc_array_emits_header :
    (js "Cc: ") ∈ headerLines
        { fromAddr := js "s@x.com", fromHeader := js "S <s@x.com>"
          toRecip := .arr [js "a@x.com"], cc := .arr [], bcc := .absent
          replyTo := .absent, subject := js "Hi", priority := .absent
          headers := [], text := .str (js "t"), html := .absent }
        (js "<1@x.com>") (js "Mon, 01 Jan 2024 00:00:00 GMT")
    ∧ asArray (JsVal.arr []) = [] := by
  decide

/-- C3 amended: `sendMail` issues exactly one `RCPT TO` per entry of
to ++ cc ++ bcc (bare address extracted from the trimmed entry), and —
provided no custom header forges a Cc/Bcc line — the composed header block
contains a Cc header exactly when the cc field is truthy (that is, provided
and non-empty as a string, or any array, including the empty array), and
never contains a Bcc header; Scenario B behaves as specified. -/
theorem c3_rcpt_and_header_contract (o : MailOpts) (messageId dateStr : JStr)
    (hh : ∀ kv ∈ o.headers,
      jsStartsWith (kv.1 ++ js ": " ++ kv.2) (js "Cc:") = false
      ∧ jsStartsWith (kv.1 ++ js ": " ++ kv.2) (js "Bcc:") = false) :
    hasHeaderLead (headerLines o messageId dateStr) (js "Cc:") = truthy o.cc
    ∧ hasHeaderLead (headerLines o messageId dateStr) (js "Bcc:") = false
    ∧ rcptCommands o
      = (allRecipients o).map
          (fun r => js "RCPT TO:<" ++ extractEmail (listTrim r) ++ js ">")
    ∧ (rcptCommands o).length
      = (asArray o.toRecip).length
        + (if truthy o.cc then (asArray o.cc).length else 0)
        + (if truthy o.bcc then (asArray o.bcc).length else 0)
    ∧ rcptCommands
        { fromAddr := js "s@x.com", fromHeader := js "S <s@x.com>"
          toRecip := .arr [js "a@x.com"], cc := .arr [js "b@x.com"]
          bcc := .arr [js "c@x.com"], replyTo := .absent, subject := js "Hi"
          priority := .absent, headers := [], text := .str (js "t")
          html := .absent }
      = [js "RCPT TO:<a@x.com>", js "RCPT TO:<b@x.com>", js "RCPT TO:<c@x.com>"]
    ∧ (js "Cc: b@x.com") ∈ headerLines
        { fromAddr := js "s@x.com", fromHeader := js "S <s@x.com>"
          toRecip := .arr [js "a@x.com"], cc := .arr [js "b@x.com"]
          bcc := .arr [js "c@x.com"], replyTo := .absent, subject := js "Hi"
          priority := .absent, headers := [], text := .str (js "t")
          html := .absent }
        (js "<1@x.com>") (js "Mon, 01 Jan 2024 00:00:00 GMT")
    ∧ hasHeaderLead (headerLines
        { fromAddr := js "s@x.com", fromHeader := js "S <s@x.com>"
          toRecip := .arr [js "a@x.com"], cc := .arr [js "b@x.com"]
          bcc := .arr [js "c@x.com"], replyTo := .absent, subject := js "Hi"
          priority := .absent, headers := [], text := .str (js "t")
          html := .absent }
        (js "<1@x.com>") (js "Mon, 01 Jan 2024 00:00:00 GMT")) (js "Bcc:")
      = false := by
  have hFrom : jsStartsWith (js "From: " ++ o.fromHeader) (js "Cc:") = false :=
    jsStartsWith_head_ne 'F' 'C' _ _ (by decide)
  have hTo : jsStartsWith (js "To: " ++ jsJoin (js ", ") (asArray o.toRecip))
      (js "Cc:") = false :=
    jsStartsWith_head_ne 'T' 'C' _ _ (by decide)
  have hReply : jsStartsWith (js "Reply-To: " ++ interp o.replyTo) (js "Cc:") = false :=
    jsStartsWith_head_ne 'R' 'C' _ _ (by decide)
  have hSubj : jsStartsWith (js "Subject: " ++ o.subject) (js "Cc:") = false :=
    jsStartsWith_head_ne 'S' 'C' _ _ (by decide)
  have hMid : jsStartsWith (js "Message-ID: " ++ messageId) (js "Cc:") = false :=
    jsStartsWith_head_ne 'M' 'C' _ _ (by decide)
  have hDate : jsStartsWith (js "Date: " ++ dateStr) (js "Cc:") = false :=
    jsStartsWith_head_ne 'D' 'C' _ _ (by decide)
  have hPrio : jsStartsWith (js "X-Priority: " ++ priorityMapVal o.priority)
      (js "Cc:") = false :=
    jsStartsWith_head_ne 'X' 'C' _ _ (by decide)
  have hMime : jsStartsWith (js "MIME-Version: 1.0") (js "Cc:") = false := by decide
  have hCc : jsStartsWith (js "Cc: " ++ jsJoin (js ", ") (asArray o.cc))
      (js "Cc:") = true := jsStartsWith_cc_self _
  have bFrom : jsStartsWith (js "From: " ++ o.fromHeader) (js "Bcc:") = false :=
    jsStartsWith_head_ne 'F' 'B' _ _ (by decide)
  have bTo : jsStartsWith (js "To: " ++ jsJoin (js ", ") (asArray o.toRecip))
      (js "Bcc:") = false :=
    jsStartsWith_head_ne 'T' 'B' _ _ (by decide)
  have bCc : jsStartsWith (js "Cc: " ++ jsJoin (js ", ") (asArray o.cc))
      (js "Bcc:") = false :=
    jsStartsWith_head_ne 'C' 'B' _ _ (by decide)
  have bReply : jsStartsWith (js "Reply-To: " ++ interp o.replyTo) (js "Bcc:") = false :=
    jsStartsWith_head_ne 'R' 'B' _ _ (by decide)
  have bSubj : jsStartsWith (js "Subject: " ++ o.subject) (js "Bcc:") = false :=
    jsStartsWith_head_ne 'S' 'B' _ _ (by decide)
  have bMid : jsStartsWith (js "Message-ID: " ++ messageId) (js "Bcc:") = false :=
    jsStartsWith_head_ne 'M' 'B' _ _ (by decide)
  have bDate : jsStartsWith (js "Date: " ++ dateStr) (js "Bcc:") = false :=
    jsStartsWith_head_ne 'D' 'B' _ _ (by decide)
  have bPrio : jsStartsWith (js "X-Priority: " ++ priorityMapVal o.priority)
      (js "Bcc:") = false :=
    jsStartsWith_head_ne 'X' 'B' _ _ (by decide)
  have bMime : jsStartsWith (js "MIME-Version: 1.0") (js "Bcc:") = false := by decide
  have hcust : (o.headers.map (fun kv => kv.1 ++ js ": " ++ kv.2)).any
      (fun l => jsStartsWith l (js "Cc:")) = false := by
    rw [List.any_eq_false]
    intro l hl
    rcases List.mem_map.mp hl with ⟨kv, hkv, rfl⟩
    simpa using (hh kv hkv).1
  have bcust : (o.headers.map (fun kv => kv.1 ++ js ": " ++ kv.2)).any
      (fun l => jsStartsWith l (js "Bcc:")) = false := by
    rw [List.any_eq_false]
    intro l hl
    rcases List.mem_map.mp hl with ⟨kv, hkv, rfl⟩
    simpa using (hh kv hkv).2
  refine ⟨?_, ?_, ?_, ?_, by decide, by decide, by decide⟩
  · simp only [hasHeaderLead, headerLines, List.any_append, List.any_cons,
      List.any_nil, any_if_singleton, hFrom, hTo, hReply, hSubj, hMid, hDate,
      hPrio, hMime, hCc, hcust]
    cases truthy o.cc <;> simp
  · simp only [hasHeaderLead, headerLines, List.any_append, List.any_cons,
      List.any_nil, any_if_singleton, bFrom, bTo, bReply, bSubj, bMid, bDate,
      bPrio, bMime, bCc, bcust]
    cases truthy o.cc <;> cases truthy o.replyTo <;> simp
  · rfl
  · simp only [rcptCommands, allRecipients, List.length_map, List.length_append]
    cases hc : truthy o.cc <;> cases hb : truthy o.bcc <;> simp

/-- C3 witness: the amended contract applied to the Scenario B message (no
custom headers, so the no-forged-header hypothesis is discharged by
computation). -/
theorem c3_witness :
    (∀ kv ∈ ([] : List (JStr × JStr)),
      jsStartsWith (kv.1 ++ js ": " ++ kv.2) (js "Cc:") = false
      ∧ jsStartsWith (kv.1 ++ js ": " ++ kv.2) (js "Bcc:") = false)
    ∧ hasHeaderLead (headerLines
        { fromAddr := js "s@x.com", fromHeader := js "S <s@x.com>"
          toRecip := .arr [js "a@x.com"], cc := .arr [js "b@x.com"]
          bcc := .arr [js "c@x.com"], replyTo := .absent, subject := js "Hi"
          priority := .absent, headers := [], text := .str (js "t")
          html := .absent }
        (js "<1@x.com>") (js "Mon, 01 Jan 2024 00:00:00 GMT")) (js "Cc:")
      = truthy (JsVal.arr [js "b@x.com"]) :=
  ⟨by simp,
   (c3_rcpt_and_header_contract
      { fromAddr := js "s@x.com", fromHeader := js "S <s@x.com>"
        toRecip := .arr [js "a@x.com"], cc := .arr [js "b@x.com"]
        bcc := .arr [js "c@x.com"], replyTo := .absent, subject := js "Hi"
        priority := .absent, headers := [], text := .str (js "t")
        html := .absent }
      (js "<1@x.com>") (js "Mon, 01 Jan 2024 00:00:00 GMT") (by simp)).1⟩

/-- C5: releasing a connection that has reached `maxMessages` closes it at
once (it ends Closed, never Idle, and no idle check is armed); otherwise the
connection is marked Idle and the idle-expiry check is armed, and when that
check fires on a still-idle open connection it closes it, upon which the
pool's close handler frees the slot to the head of the FIFO queue. -/
theorem c5_release_lifecycle (opts : PoolOptions) (c : PConn)
    (hopen : c.closed = false) :
    (opts.maxMessages ≤ c.messageCount →
      releaseConnection opts.maxMessages c = ({ c with closed := true }, false)
      ∧ isIdleC { c with closed := true } = false)
    ∧ (c.messageCount < opts.maxMessages →
      releaseConnection opts.maxMessages c = (markIdleConn c, true)
      ∧ isIdleC (markIdleConn c) = true)
    ∧ (∀ c2 : PConn, isIdleC c2 = true →
      idleCheckFire c2 = { c2 with closed := true }
      ∧ (idleCheckFire c2).closed = true)
    ∧ (∀ (p : PoolState) (key wk : JStr) (now : Nat) (rest : List JStr),
      p.queue = wk :: rest → 1 ≤ opts.maxConnections →
      p.activeConnections ≤ opts.maxConnections →
      (onCloseEvent opts p key now).2 = some wk) := by
  refine ⟨?_, ?_, ?_, ?_⟩
  · intro hm
    constructor
    · simp [releaseConnection, closeConn, hopen, hm]
    · simp [isIdleC]
  · intro hm
    constructor
    · simp [releaseConnection, Nat.not_le.mpr hm]
    · simp [isIdleC, markIdleConn, hopen]
  · intro c2 hidle
    have hsplit : c2.busy = false ∧ c2.closed = false := by
      simpa [isIdleC] using hidle
    have hcl : c2.closed = false := hsplit.2
    constructor
    · simp [idleCheckFire, hidle, hcl, closeConn]
    · simp [idleCheckFire, hidle, hcl, closeConn]
  · intro p key wk now rest hq hmax hact
    have : ¬ opts.maxConnections ≤ p.activeConnections - 1 := by omega
    simp [onCloseEvent, processQueue, hq, this]

/-- C5 witness: the lifecycle facts at `maxMessages = 1` for a spent
connection and for a fresh one. -/
theorem c5_witness :
    ((⟨0, true, false, 1, 5⟩ : PConn).closed = false
      ∧ (⟨1, true, false, 0, 5⟩ : PConn).closed = false)
    ∧ releaseConnection 1 (⟨0, true, false, 1, 5⟩ : PConn)
      = (⟨0, true, true, 1, 5⟩, false)
    ∧ releaseConnection 1 (⟨1, true, false, 0, 5⟩ : PConn)
      = (⟨1, false, false, 0, 5⟩, true) :=
  ⟨⟨rfl, rfl⟩,
   ((c5_release_lifecycle ⟨5, 1, 1000, 3, 30000⟩ ⟨0, true, false, 1, 5⟩
      (by decide)).1 (by decide)).1,
   ((c5_release_lifecycle ⟨5, 1, 1000, 3, 30000⟩ ⟨1, true, false, 0, 5⟩
      (by decide)).2.1 (by decide)).1⟩

/-- Helper: `countWindow` over a cons. -/
theorem countWindow_cons (a w1 : Nat) (l : List (Nat × Nat)) (w : Nat) :
    countWindow ((a, w1) :: l) w = (if w1 = w then 1 else 0) + countWindow l w := by
  by_cases h : w1 = w <;> simp [countWindow, List.filter_cons, h, Nat.add_comm]

/-- Helper: no admission is charged to a window no recorded admission
uses. -/
theorem countWindow_eq_zero (l : List (Nat × Nat)) (w : Nat)
    (h : ∀ p ∈ l, ¬p.2 = w) : countWindow l w = 0 := by
  simp only [countWindow, List.length_eq_zero, List.filter_eq_nil_iff]
  intro p hp
  simp [h p hp]

/-- Helper: one full `checkRateLimit` evaluation (fuel 2) always admits when
`rateLimit ≥ 1`, and either charges the admission to the current window
(incrementing the counter) or opens a strictly later window with counter
1. -/
theorem rlAcquire_spec (delta limit : Nat) (hd : 1 ≤ delta) (hl : 1 ≤ limit)
    (st : RL) (now : Nat) (hc : st.rateCounter ≤ limit)
    (hn : st.lastRateCheck ≤ now) :
    ∃ st1 a, rlAcquire delta limit 2 st now = some (st1, a)
      ∧ now ≤ a ∧ st1.rateCounter ≤ limit
      ∧ ((st1.lastRateCheck = st.lastRateCheck
            ∧ st1.rateCounter = st.rateCounter + 1)
        ∨ (st.lastRateCheck < st1.lastRateCheck ∧ st1.rateCounter = 1)) := by
  have h0 : ¬limit ≤ 0 := by omega
  by_cases hreset : delta ≤ now - st.lastRateCheck
  · refine ⟨⟨now, 1⟩, now, ?_, Nat.le_refl _, hl,
      Or.inr ⟨by show st.lastRateCheck < now; omega, rfl⟩⟩
    simp [rlAcquire, rlStep, hreset, h0]
  · by_cases hcnt : limit ≤ st.rateCounter
    · have hwait : 0 < delta - (now - st.lastRateCheck) := by omega
      have hwake : now + (delta - (now - st.lastRateCheck))
          = st.lastRateCheck + delta := by omega
      have hreset2 : delta ≤ st.lastRateCheck + delta - st.lastRateCheck := by omega
      refine ⟨⟨st.lastRateCheck + delta, 1⟩, st.lastRateCheck + delta, ?_,
        by omega, hl,
        Or.inr ⟨by show st.lastRateCheck < st.lastRateCheck + delta; omega, rfl⟩⟩
      simp [rlAcquire, rlStep, hreset, hcnt, hwait, hwake, hreset2, h0]
    · refine ⟨⟨st.lastRateCheck, st.rateCounter + 1⟩, now, ?_, Nat.le_refl _,
        by show st.rateCounter + 1 ≤ limit; omega, Or.inl ⟨rfl, rfl⟩⟩
      simp [rlAcquire, rlStep, hreset, hcnt]

/-- Helper: a valid consultation sequence runs to completion, yields one
admission per consultation, and charges every window at most `rateLimit`
admissions beyond the counter it started with. -/
theorem rlRun_spec (delta limit : Nat) (hd : 1 ≤ delta) (hl : 1 ≤ limit) :
    ∀ (ts : List Nat) (st : RL), rlOkChain delta limit st ts = true →
      st.rateCounter ≤ limit →
      ∃ stf adms, rlRun delta limit st ts = some (stf, adms)
        ∧ adms.length = ts.length
        ∧ (∀ p ∈ adms, st.lastRateCheck ≤ p.2)
        ∧ (∀ w, countWindow adms w
            + (if w = st.lastRateCheck then st.rateCounter else 0) ≤ limit) := by
  intro ts
  induction ts with
  | nil =>
    intro st _ hc
    refine ⟨st, [], rfl, rfl, by simp, ?_⟩
    intro w
    simp only [countWindow, List.filter_nil, List.length_nil, Nat.zero_add]
    split
    · exact hc
    · exact Nat.zero_le _
  | cons t ts ih =>
    intro st hok hc
    simp only [rlOkChain, Bool.and_eq_true] at hok
    have hn : st.lastRateCheck ≤ t := by
      have := hok.1
      simpa using this
    obtain ⟨st1, a, hacq, hta, hc1, hdisj⟩ :=
      rlAcquire_spec delta limit hd hl st t hc hn
    have hokts : rlOkChain delta limit st1 ts = true := by
      have h2 := hok.2
      rw [hacq] at h2
      simpa using h2
    obtain ⟨stf, adms, hrun, hlen, hmem, hcount⟩ := ih st1 hokts hc1
    refine ⟨stf, (a, st1.lastRateCheck) :: adms, ?_, by simp [hlen], ?_, ?_⟩
    · simp [rlRun, hacq, hrun]
    · intro p hp
      rcases List.mem_cons.mp hp with rfl | hp
      · rcases hdisj with ⟨heq, _⟩ | ⟨hlt, _⟩
        · simp [heq]
        · simp [Nat.le_of_lt hlt]
      · have h1 := hmem p hp
        rcases hdisj with ⟨heq, _⟩ | ⟨hlt, _⟩
        · omega
        · omega
    · intro w
      rw [countWindow_cons]
      rcases hdisj with ⟨heq, hcnt1⟩ | ⟨hlt, hcnt1⟩
      · have hIH := hcount w
        by_cases hw : w = st.lastRateCheck
        · rw [if_pos (by omega : st1.lastRateCheck = w), if_pos hw]
          rw [if_pos (by omega : w = st1.lastRateCheck), hcnt1] at hIH
          omega
        · rw [if_neg (by omega : ¬st1.lastRateCheck = w), if_neg hw]
          rw [if_neg (by omega : ¬w = st1.lastRateCheck)] at hIH
          omega
      · have hIH := hcount w
        by_cases hw : w = st1.lastRateCheck
        · rw [if_pos (by omega : st1.lastRateCheck = w)]
          rw [if_pos hw, hcnt1] at hIH
          rw [if_neg (by omega : ¬w = st.lastRateCheck)]
          omega
        · rw [if_neg (by omega : ¬st1.lastRateCheck = w)]
          rw [if_neg hw] at hIH
          by_cases hws : w = st.lastRateCheck
          · have hzero : countWindow adms w = 0 := by
              refine countWindow_eq_zero adms w ?_
              intro p hp
              have := hmem p hp
              omega
            rw [if_pos hws]
            omega
          · rw [if_neg hws]
            omega

/-- C6: starting from the constructor state (counter 0), any valid sequence
of acquisitions is fully admitted — none rejected — with at most `rateLimit`
admissions charged to any one rate window; and a caller arriving when the
current window's quota is spent is delayed to exactly the moment the next
window opens (`lastRateCheck + rateDelta`), where the re-evaluation resets
the window and admits it. -/
theorem c6_rate_limit_window (delta limit : Nat) (st0 : RL) (ts : List Nat)
    (hd : 1 ≤ delta) (hl : 1 ≤ limit) (h0 : st0.rateCounter = 0)
    (hok : rlOkChain delta limit st0 ts = true) :
    (∃ stf adms, rlRun delta limit st0 ts = some (stf, adms)
      ∧ adms.length = ts.length
      ∧ ∀ w, countWindow adms w ≤ limit)
    ∧ (∀ (st : RL) (now : Nat), st.lastRateCheck ≤ now →
        now < st.lastRateCheck + delta → limit ≤ st.rateCounter →
        rlStep delta limit st now = (st, some (st.lastRateCheck + delta))
        ∧ rlAcquire delta limit 2 st now
          = some (⟨st.lastRateCheck + delta, 1⟩, st.lastRateCheck + delta)) := by
  constructor
  · obtain ⟨stf, adms, hrun, hlen, _, hcount⟩ :=
      rlRun_spec delta limit hd hl ts st0 hok (by omega)
    refine ⟨stf, adms, hrun, hlen, ?_⟩
    intro w
    have hw := hcount w
    by_cases h : w = st0.lastRateCheck
    · rw [if_pos h] at hw
      omega
    · rw [if_neg h] at hw
      omega
  · intro st now hn hwin hcnt
    have h0l : ¬limit ≤ 0 := by omega
    have hreset : ¬delta ≤ now - st.lastRateCheck := by omega
    have hwait : 0 < delta - (now - st.lastRateCheck) := by omega
    have hwake : now + (delta - (now - st.lastRateCheck))
        = st.lastRateCheck + delta := by omega
    have hreset2 : delta ≤ st.lastRateCheck + delta - st.lastRateCheck := by omega
    constructor
    · simp [rlStep, hreset, hcnt, hwait, hwake]
    · simp [rlAcquire, rlStep, hreset, hcnt, hwait, hwake, hreset2, h0l]

/-- C6 witness: four immediate acquisitions against `rateDelta = 1000`,
`rateLimit = 3`: the run admits all four — the fourth delayed, not
rejected — and no window holds more than three admissions. -/
theorem c6_witness :
    (1 ≤ 1000 ∧ 1 ≤ 3 ∧ (RL.mk 0 0).rateCounter = 0
      ∧ rlOkChain 1000 3 ⟨0, 0⟩ [0, 0, 0, 0] = true)
    ∧ ((∃ stf adms, rlRun 1000 3 ⟨0, 0⟩ [0, 0, 0, 0] = some (stf, adms)
        ∧ adms.length = ([0, 0, 0, 0] : List Nat).length
        ∧ ∀ w, countWindow adms w ≤ 3)
      ∧ (∀ (st : RL) (now : Nat), st.lastRateCheck ≤ now →
          now < st.lastRateCheck + 1000 → 3 ≤ st.rateCounter →
          rlStep 1000 3 st now = (st, some (st.lastRateCheck + 1000))
          ∧ rlAcquire 1000 3 2 st now
            = some (⟨st.lastRateCheck + 1000, 1⟩, st.lastRateCheck + 1000))) :=
  ⟨⟨by decide, by decide, rfl, by decide⟩,
   c6_rate_limit_window 1000 3 ⟨0, 0⟩ [0, 0, 0, 0]
     (by decide) (by decide) rfl (by decide)⟩

/-- C9 counterexample: two sessions against the same server replies whose
configurations differ only in `auth.accessToken` (absent versus `tok`)
present different error texts — the absent token selects the fixed
missing-credential message before any command is sent, so error text is not
invariant under all credential changes. -/
theorem c9_error_text_depends_on_token_presence :
    errOf (authenticate
        ⟨fun i => .ok (if i = 0 then js "250 OK" else js "535 Denied"), none⟩
        ⟨true, false,
          ⟨some (js "xoauth2"), js "user@test.com", js "pw", none⟩,
          js "localhost"⟩ [] 0)
      = some (js "XOAUTH2 access token is required")
    ∧ errOf (authenticate
        ⟨fun i => .ok (if i = 0 then js "250 OK" else js "535 Denied"), none⟩
        ⟨true, false,
          ⟨some (js "xoauth2"), js "user@test.com", js "pw", some (js "tok")⟩,
          js "localhost"⟩ [] 0)
      = some (js "SMTP Error: 535 Denied") := by
  decide

/-- C9 amended: with the server replies held fixed, the entire outcome of
`authenticate` — error text included — is unchanged when only `auth.pass`
changes, and when `auth.accessToken` changes without crossing the
truthy/falsy boundary; credential values never reach the error text (the
token's presence alone selects the fixed missing-credential message). -/
theorem c9_credentials_not_in_errors (env : ServerEnv) (cfg : ClientCfg)
    (caps0 : List JStr) (i : Nat) (pass2 : JStr) (tok2 : Option JStr)
    (htok : tokenTruthy tok2 = tokenTruthy cfg.auth.accessToken) :
    authenticate env
      { cfg with auth := { cfg.auth with pass := pass2, accessToken := tok2 } }
      caps0 i
    = authenticate env cfg caps0 i := by
  rcases cfg with ⟨sec, rtls, ⟨atype, user, pass, tok⟩, name⟩
  simp only at htok
  simp only [authenticate, authLogin, authPlain, authOAuth2, authXOAuth2,
    effectiveAuthType, sendCommand]
  rw [htok]

/-- C9 witness: the invariance applied to two concrete XOAUTH2 sessions
differing in `pass` and in the (non-empty) token value. -/
theorem c9_witness :
    tokenTruthy (some (js "tokenB")) = tokenTruthy (some (js "tokenA"))
    ∧ authenticate
        ⟨fun _ => .ok (js "250 OK"), none⟩
        ⟨true, false,
          ⟨some (js "xoauth2"), js "u@x.com", js "other", some (js "tokenB")⟩,
          js "h"⟩ [] 0
      = authenticate
        ⟨fun _ => .ok (js "250 OK"), none⟩
        ⟨true, false,
          ⟨some (js "xoauth2"), js "u@x.com", js "pw", some (js "tokenA")⟩,
          js "h"⟩ [] 0 :=
  ⟨by decide,
   c9_credentials_not_in_errors
     ⟨fun _ => .ok (js "250 OK"), none⟩
     ⟨true, false,
       ⟨some (js "xoauth2"), js "u@x.com", js "pw", some (js "tokenA")⟩,
       js "h"⟩ [] 0 (js "other") (some (js "tokenB")) (by decide)⟩

/-- Helper: base64 alphabet characters are never padding or line breaks
(checked for every sextet). -/
theorem valToChar_fin_safe :
    ∀ n : Fin 64, valToChar n.val ≠ '=' ∧ valToChar n.val ≠ '\r'
      ∧ valToChar n.val ≠ '\n' := by
  decide

/-- Helper: decoding inverts the alphabet on every sextet. -/
theorem charToVal_valToChar_fin :
    ∀ n : Fin 64, charToVal (valToChar n.val) = n.val := by
  decide

/-- Helper: lifted form of the padding fact. -/
theorem valToChar_ne_pad (n : Nat) (h : n < 64) : valToChar n ≠ '=' :=
  (valToChar_fin_safe ⟨n, h⟩).1

/-- Helper: lifted form of the alphabet inversion. -/
theorem charToVal_valToChar (n : Nat) (h : n < 64) : charToVal (valToChar n) = n :=
  charToVal_valToChar_fin ⟨n, h⟩

/-- Helper: the base64 text of a byte sequence contains no CR or LF. -/
theorem b64EncodeBytes_no_crlf :
    ∀ B : List Nat, (∀ b ∈ B, b < 256) →
      ∀ c ∈ b64EncodeBytes B, c ≠ '\r' ∧ c ≠ '\n' := by
  intro B
  induction B using b64EncodeBytes.induct with
  | case1 =>
    intro _ c hc
    simp [b64EncodeBytes] at hc
  | case2 b0 =>
    intro hB c hc
    have h0 : b0 < 256 := hB b0 (by simp)
    simp only [b64EncodeBytes, List.mem_cons, List.not_mem_nil, or_false] at hc
    rcases hc with rfl | rfl | rfl | rfl
    · exact ⟨(valToChar_fin_safe ⟨b0 / 4, by omega⟩).2.1,
        (valToChar_fin_safe ⟨b0 / 4, by omega⟩).2.2⟩
    · exact ⟨(valToChar_fin_safe ⟨b0 % 4 * 16, by omega⟩).2.1,
        (valToChar_fin_safe ⟨b0 % 4 * 16, by omega⟩).2.2⟩
    · exact ⟨by decide, by decide⟩
    · exact ⟨by decide, by decide⟩
  | case3 b0 b1 =>
    intro hB c hc
    have h0 : b0 < 256 := hB b0 (by simp)
    have h1 : b1 < 256 := hB b1 (by simp)
    simp only [b64EncodeBytes, List.mem_cons, List.not_mem_nil, or_false] at hc
    rcases hc with rfl | rfl | rfl | rfl
    · exact ⟨(valToChar_fin_safe ⟨b0 / 4, by omega⟩).2.1,
        (valToChar_fin_safe ⟨b0 / 4, by omega⟩).2.2⟩
    · exact ⟨(valToChar_fin_safe ⟨b0 % 4 * 16 + b1 / 16, by omega⟩).2.1,
        (valToChar_fin_safe ⟨b0 % 4 * 16 + b1 / 16, by omega⟩).2.2⟩
    · exact ⟨(valToChar_fin_safe ⟨b1 % 16 * 4, by omega⟩).2.1,
        (valToChar_fin_safe ⟨b1 % 16 * 4, by omega⟩).2.2⟩
    · exact ⟨by decide, by decide⟩
  | case4 b0 b1 b2 rest ih =>
    intro hB c hc
    have h0 : b0 < 256 := hB b0 (by simp)
    have h1 : b1 < 256 := hB b1 (by simp)
    have h2 : b2 < 256 := hB b2 (by simp)
    simp only [b64EncodeBytes, List.mem_cons] at hc
    rcases hc with rfl | rfl | rfl | rfl | hc
    · exact ⟨(valToChar_fin_safe ⟨b0 / 4, by omega⟩).2.1,
        (valToChar_fin_safe ⟨b0 / 4, by omega⟩).2.2⟩
    · exact ⟨(valToChar_fin_safe ⟨b0 % 4 * 16 + b1 / 16, by omega⟩).2.1,
        (valToChar_fin_safe ⟨b0 % 4 * 16 + b1 / 16, by omega⟩).2.2⟩
    · exact ⟨(valToChar_fin_safe ⟨b1 % 16 * 4 + b2 / 64, by omega⟩).2.1,
        (valToChar_fin_safe ⟨b1 % 16 * 4 + b2 / 64, by omega⟩).2.2⟩
    · exact ⟨(valToChar_fin_safe ⟨b2 % 64, by omega⟩).2.1,
        (valToChar_fin_safe ⟨b2 % 64, by omega⟩).2.2⟩
    · exact ih (fun b hb => hB b (by simp [hb])) c hc

/-- Helper: `stripLineBreaks` distributes over append. -/
theorem stripLineBreaks_append (a b : JStr) :
    stripLineBreaks (a ++ b) = stripLineBreaks a ++ stripLineBreaks b := by
  simp [stripLineBreaks]

/-- Helper: stripping a lone CRLF leaves nothing. -/
theorem stripLineBreaks_crlf : stripLineBreaks (js "\r\n") = [] := by
  decide

/-- Helper: stripping is the identity on CR/LF-free text. -/
theorem stripLineBreaks_keep (a : JStr) (h : ∀ c ∈ a, c ≠ '\r' ∧ c ≠ '\n') :
    stripLineBreaks a = a := by
  refine List.filter_eq_self.mpr ?_
  intro c hc
  have := h c hc
  simp [this.1, this.2]

/-- Helper: stripping CR/LF from the flattened CRLF-terminated chunks
recovers the chunked text. -/
theorem strip_chunks_flatten :
    ∀ (l cur : JStr) (k : Nat),
      (∀ c ∈ l, c ≠ '\r' ∧ c ≠ '\n') → (∀ c ∈ cur, c ≠ '\r' ∧ c ≠ '\n') →
      stripLineBreaks
          (((chunksOf76Go cur k l).map (fun chunk => chunk ++ js "\r\n")).flatten)
        = cur.reverse ++ l := by
  intro l
  induction l with
  | nil =>
    intro cur k _ hcur
    have hkeep : ∀ x ∈ cur.reverse, x ≠ '\r' ∧ x ≠ '\n' :=
      fun x hx => hcur x (List.mem_reverse.mp hx)
    simp only [chunksOf76Go, List.map_cons, List.map_nil, List.flatten_cons,
      List.flatten_nil, List.append_nil]
    rw [stripLineBreaks_append, stripLineBreaks_crlf,
      stripLineBreaks_keep cur.reverse hkeep]
    simp
  | cons c cs ih =>
    intro cur k hl hcur
    have hc : c ≠ '\r' ∧ c ≠ '\n' := hl c (by simp)
    have hcs : ∀ x ∈ cs, x ≠ '\r' ∧ x ≠ '\n' := fun x hx => hl x (by simp [hx])
    by_cases hk : k = 0
    · subst hk
      have hkeep : ∀ x ∈ cur.reverse, x ≠ '\r' ∧ x ≠ '\n' :=
        fun x hx => hcur x (List.mem_reverse.mp hx)
      have hone : ∀ x ∈ [c], x ≠ '\r' ∧ x ≠ '\n' := by
        intro x hx
        rcases List.mem_singleton.mp hx with rfl
        exact hc
      have hstep : chunksOf76Go cur 0 (c :: cs)
          = cur.reverse :: chunksOf76Go [c] 75 cs := by
        simp [chunksOf76Go]
      rw [hstep, List.map_cons, List.flatten_cons, stripLineBreaks_append,
        stripLineBreaks_append, stripLineBreaks_crlf,
        stripLineBreaks_keep cur.reverse hkeep, ih [c] 75 hcs hone]
      simp
    · have hcurc : ∀ x ∈ c :: cur, x ≠ '\r' ∧ x ≠ '\n' := by
        intro x hx
        rcases List.mem_cons.mp hx with rfl | hx
        · exact hc
        · exact hcur x hx
      have hstep : chunksOf76Go cur k (c :: cs)
          = chunksOf76Go (c :: cur) (k - 1) cs := by
        simp [chunksOf76Go, hk]
      rw [hstep, ih (c :: cur) (k - 1) hcs hcurc]
      simp

/-- Helper: stripping the inserted line breaks from the emitted attachment
text recovers the base64 text, which contains no CR/LF of its own. -/
theorem strip_emit76 (s : JStr) (hs : ∀ c ∈ s, c ≠ '\r' ∧ c ≠ '\n') :
    stripLineBreaks (emit76 s) = s := by
  cases s with
  | nil => rfl
  | cons x cs =>
    have hone : ∀ y ∈ [x], y ≠ '\r' ∧ y ≠ '\n' := by
      intro y hy
      rcases List.mem_singleton.mp hy with rfl
      exact hs _ (by simp)
    have := strip_chunks_flatten cs [x] 75 (fun y hy => hs y (by simp [hy])) hone
    simpa [emit76] using this

/-- Helper: base64 decoding inverts base64 encoding on byte sequences. -/
theorem b64_decode_encode :
    ∀ B : List Nat, (∀ b ∈ B, b < 256) → b64DecodeChars (b64EncodeBytes B) = B := by
  intro B
  induction B using b64EncodeBytes.induct with
  | case1 => intro _; rfl
  | case2 b0 =>
    intro hB
    have h0 : b0 < 256 := hB b0 (by simp)
    have hdec : b64DecodeChars (b64EncodeBytes [b0])
        = [charToVal (valToChar (b0 / 4)) * 4
            + charToVal (valToChar (b0 % 4 * 16)) / 16] := by
      simp [b64EncodeBytes, b64DecodeChars]
    rw [hdec, charToVal_valToChar (b0 / 4) (by omega),
      charToVal_valToChar (b0 % 4 * 16) (by omega)]
    simp only [List.cons.injEq, and_true]
    omega
  | case3 b0 b1 =>
    intro hB
    have h0 : b0 < 256 := hB b0 (by simp)
    have h1 : b1 < 256 := hB b1 (by simp)
    have hne : valToChar (b1 % 16 * 4) ≠ '=' := valToChar_ne_pad _ (by omega)
    have hdec : b64DecodeChars (b64EncodeBytes [b0, b1])
        = [charToVal (valToChar (b0 / 4)) * 4
            + charToVal (valToChar (b0 % 4 * 16 + b1 / 16)) / 16,
           charToVal (valToChar (b0 % 4 * 16 + b1 / 16)) % 16 * 16
            + charToVal (valToChar (b1 % 16 * 4)) / 4] := by
      simp [b64EncodeBytes, b64DecodeChars, hne]
    rw [hdec, charToVal_valToChar (b0 / 4) (by omega),
      charToVal_valToChar (b0 % 4 * 16 + b1 / 16) (by omega),
      charToVal_valToChar (b1 % 16 * 4) (by omega)]
    simp only [List.cons.injEq, and_true]
    constructor
    · omega
    · omega
  | case4 b0 b1 b2 rest ih =>
    intro hB
    have h0 : b0 < 256 := hB b0 (by simp)
    have h1 : b1 < 256 := hB b1 (by simp)
    have h2 : b2 < 256 := hB b2 (by simp)
    have hne2 : valToChar (b1 % 16 * 4 + b2 / 64) ≠ '=' :=
      valToChar_ne_pad _ (by omega)
    have hne3 : valToChar (b2 % 64) ≠ '=' := valToChar_ne_pad _ (by omega)
    have hdec : b64DecodeChars (b64EncodeBytes (b0 :: b1 :: b2 :: rest))
        = (charToVal (valToChar (b0 / 4)) * 4
            + charToVal (valToChar (b0 % 4 * 16 + b1 / 16)) / 16)
          :: (charToVal (valToChar (b0 % 4 * 16 + b1 / 16)) % 16 * 16
            + charToVal (valToChar (b1 % 16 * 4 + b2 / 64)) / 4)
          :: (charToVal (valToChar (b1 % 16 * 4 + b2 / 64)) % 4 * 64
            + charToVal (valToChar (b2 % 64)))
          :: b64DecodeChars (b64EncodeBytes rest) := by
      simp [b64EncodeBytes, b64DecodeChars, hne2, hne3]
    rw [hdec, charToVal_valToChar (b0 / 4) (by omega),
      charToVal_valToChar (b0 % 4 * 16 + b1 / 16) (by omega),
      charToVal_valToChar (b1 % 16 * 4 + b2 / 64) (by omega),
      charToVal_valToChar (b2 % 64) (by omega),
      ih (fun b hb => hB b (by simp [hb]))]
    simp only [List.cons.injEq, and_true]
    refine ⟨by omega, by omega, by omega⟩

/-- C8: for every attachment byte content, the transmitted base64 text —
hard lines of at most 76 characters, each CRLF-terminated — reproduces the
original bytes exactly after stripping the inserted line breaks and base64
decoding. -/
theorem c8_attachment_base64_roundtrip (B : List Nat) (hB : ∀ b ∈ B, b < 256) :
    b64DecodeChars (stripLineBreaks (emit76 (b64EncodeBytes B))) = B := by
  rw [strip_emit76 _ (b64EncodeBytes_no_crlf B hB), b64_decode_encode B hB]

/-- C8 witness: the round trip on a 60-byte content whose base64 text (80
characters) spans two emitted lines. -/
theorem c8_witness :
    (∀ b ∈ List.range 60, b < 256)
    ∧ b64DecodeChars (stripLineBreaks (emit76 (b64EncodeBytes (List.range 60))))
      = List.range 60 :=
  ⟨by decide, c8_attachment_base64_roundtrip (List.range 60) (by decide)⟩

end Senderwolf

